import Mathlib

/-!
Shallow embedding of the Maintenance-Smart repository
(src/export_json.py and src/migrate_logs.py).

Records are JSON objects modelled as association lists of string keys to
JSON values.  The pandas DataFrame built by `pd.DataFrame(data)` is modelled
column-wise: a column exists when at least one record carries the key, and a
record missing the key holds a missing cell (pandas NaN), modelled as `none`.
A JSON `null` value behaves like a missing cell under `fillna` /
`pd.to_numeric` / `pd.to_datetime`, and is kept as an explicit `JVal.null`.
-/

namespace MaintSmart

/-- A JSON scalar value as it appears in a maintenance-log record. -/
inductive JVal where
  | str (s : String)
  | num (q : Rat)
  | bool (b : Bool)
  | null
  deriving DecidableEq, Repr

/-- A raw JSON record: an association list from field names to values
(first binding wins, as for JSON object keys). -/
abbrev Rec := List (String × JVal)

/-- Value of field `k` in record `r`, or `none` when the key is absent. -/
def getF (r : Rec) (k : String) : Option JVal :=
  r.lookup k

/-- Python `r.get(k, d)`: the field value when present, else the default. -/
def jget (r : Rec) (k : String) (d : JVal) : JVal :=
  (getF r k).getD d

/-- A cell is NA for pandas purposes when the key is absent or the value is
JSON null. -/
def isNA : Option JVal → Bool
  | none => true
  | some .null => true
  | some _ => false

/-- Numeric value of a digit list, or `none` when empty or not all digits. -/
def natOfDigits : List Char → Option Nat
  | [] => none
  | cs =>
    if cs.all Char.isDigit then
      some (cs.foldl (fun n c => n * 10 + (c.toNat - 48)) 0)
    else none

/-- Decimal-literal parsing used to model `pd.to_numeric` on strings:
an optional leading minus sign, digits, and an optional fractional part. -/
def parseRat (s : String) : Option Rat :=
  let neg := s.startsWith "-"
  let t := if neg then s.drop 1 else s
  let q : Option Rat :=
    match t.splitOn "." with
    | [w] => (natOfDigits w.toList).map (fun n => (n : Rat))
    | [w, f] => do
        let wn ← natOfDigits w.toList
        let fn ← natOfDigits f.toList
        pure ((wn : Rat) + (fn : Rat) / ((10 : Rat) ^ f.length))
    | _ => none
  q.map (fun x => if neg then -x else x)

/-- Scalar semantics of `pd.to_numeric(v, errors="coerce")`:
numbers pass through, numeric strings parse, booleans become 0/1,
everything else (including null) becomes NaN (`none`). -/
def toNumQ : JVal → Option Rat
  | .num q => some q
  | .str s => parseRat s
  | .bool b => some (if b then 1 else 0)
  | .null => none

/-- Cell semantics of `pd.to_numeric(cell, errors="coerce").fillna(0)`:
a missing cell or a non-numeric value becomes 0. -/
def coerceNum (c : Option JVal) : Rat :=
  match c with
  | none => 0
  | some v => (toNumQ v).getD 0

/-- Char digit value. -/
def digitVal (c : Char) : Option Nat :=
  if c.isDigit then some (c.toNat - 48) else none

/-- ISO `YYYY-MM-DD` date parsing, modelling `pd.to_datetime(v,
errors="coerce")` on the date strings this repository stores; anything
else coerces to NaT (`none`).  A date is (year, month, day). -/
def parseISO (s : String) : Option (Nat × Nat × Nat) :=
  match s.toList with
  | [y1, y2, y3, y4, s1, m1, m2, s2, d1, d2] =>
    if s1 = '-' && s2 = '-' then do
      let a ← digitVal y1
      let b ← digitVal y2
      let c ← digitVal y3
      let d ← digitVal y4
      let e ← digitVal m1
      let f ← digitVal m2
      let g ← digitVal d1
      let h ← digitVal d2
      let y := ((a * 10 + b) * 10 + c) * 10 + d
      let mo := e * 10 + f
      let dy := g * 10 + h
      if 1 ≤ mo && mo ≤ 12 && 1 ≤ dy && dy ≤ 31 then
        pure (y, mo, dy)
      else none
    else none
  | _ => none

/-- Cell semantics of `pd.to_datetime(cell, errors="coerce")`. -/
def parseDate (c : Option JVal) : Option (Nat × Nat × Nat) :=
  match c with
  | some (.str s) => parseISO s
  | _ => none

/-- Two-digit rendering of a month number. -/
def month2 (m : Nat) : String :=
  if m < 10 then "0" ++ toString m else toString m

/-- Cell semantics of `date.dt.to_period("M").astype(str)`:
`YYYY-MM` for a valid timestamp, the string `"NaT"` otherwise. -/
def monthStr (d : Option (Nat × Nat × Nat)) : String :=
  match d with
  | some (y, m, _) => toString y ++ "-" ++ month2 m
  | none => "NaT"

/-- Cell semantics of `fillna("")`: a missing or null cell becomes the
empty string, any other value is kept unchanged. -/
def fillS (c : Option JVal) : JVal :=
  match c with
  | none => .str ""
  | some .null => .str ""
  | some v => v

/-- `c` is a column of `pd.DataFrame(data)`: some record carries key `c`
(a null value still creates the column). -/
def hasCol (data : List Rec) (c : String) : Bool :=
  data.any (fun r => (getF r c).isSome)

/-- Append a column name if it is not already present
(pandas `df[c] = ...` appends a new column at the end). -/
def addCol (cs : List String) (c : String) : List String :=
  if c ∈ cs then cs else cs ++ [c]

/-- Column list of `pd.DataFrame(data)`: the union of the record keys in
first-appearance order. -/
def inputCols (data : List Rec) : List String :=
  data.foldl (fun acc r => r.foldl (fun a kv => addCol a kv.1) acc) []

/-- Canonical columns assigned by `load_logs`, in assignment order. -/
def assignedCols : List String :=
  ["date", "month", "downtime", "line", "section", "category",
   "equipment", "rootcause", "action"]

/-- Column list of the DataFrame returned by `load_logs` on success:
the input columns followed by the newly created canonical columns. -/
def outCols (data : List Rec) : List String :=
  assignedCols.foldl addCol (inputCols data)

/-- Cell feeding the `date` column for record `r`: `load_logs` uses the
`date` column when it exists and otherwise copies the `Date` column. -/
def dateCell (data : List Rec) (r : Rec) : Option JVal :=
  if hasCol data "date" then getF r "date" else getF r "Date"

/-- Cell feeding the `downtime` column for record `r`: the `downtime`
column when it exists, else the `downtime_min` column, else the constant 0
assigned by `df["downtime"] = 0`. -/
def dtCell (data : List Rec) (r : Rec) : Option JVal :=
  if hasCol data "downtime" then getF r "downtime"
  else if hasCol data "downtime_min" then getF r "downtime_min"
  else some (.num 0)

/-- Resolution of a base text column (`line`, `section`, `category`):
missing column means empty string for every row, otherwise `fillna("")`. -/
def textField (data : List Rec) (r : Rec) (c : String) : JVal :=
  if hasCol data c then fillS (getF r c) else .str ""

/-- Resolution of a mapped text column (`equipment`, `rootcause`,
`action`): the target column if present, else the fallback candidate
column, else empty string; `fillna("")` in every case. -/
def mappedField (data : List Rec) (r : Rec) (target fb : String) : JVal :=
  if hasCol data target then fillS (getF r target)
  else if hasCol data fb then fillS (getF r fb)
  else .str ""

/-- A row of the normalized DataFrame restricted to the canonical fields
produced by `load_logs`. -/
structure NormRow where
  date : Option (Nat × Nat × Nat)
  month : String
  downtime : Rat
  line : JVal
  sect : JVal
  equipment : JVal
  category : JVal
  rootcause : JVal
  action : JVal
  deriving DecidableEq, Repr

/-- Canonical-field content of the row of record `r` after `load_logs`
(the column resolutions are those of the whole DataFrame `data`). -/
def normRow (data : List Rec) (r : Rec) : NormRow :=
  { date := parseDate (dateCell data r)
    month := monthStr (parseDate (dateCell data r))
    downtime := coerceNum (dtCell data r)
    line := textField data r "line"
    sect := textField data r "section"
    equipment := mappedField data r "equipment" "asset_id"
    category := textField data r "category"
    rootcause := mappedField data r "rootcause" "root_cause"
    action := mappedField data r "action" "action_taken" }

/-- The normalized DataFrame: its column list and, for each input record
in order, the canonical-field content of its row. -/
structure LoadResult where
  cols : List String
  rows : List NormRow
  deriving DecidableEq, Repr

/-- All rows of the normalized DataFrame, in input order. -/
def loadRows (data : List Rec) : List NormRow :=
  data.map (normRow data)

/-- `load_logs` on an already-parsed record list: fails (ValueError)
listing the available columns when neither a `date` nor a `Date` column
exists, otherwise produces the normalized DataFrame. -/
def load_logs (data : List Rec) : Except (List String) LoadResult :=
  if hasCol data "date" || hasCol data "Date" then
    .ok { cols := outCols data, rows := loadRows data }
  else
    .error (inputCols data)

/-! ## The migrator (src/migrate_logs.py) -/

/-- New-schema record built by `migrate` for one old-schema record,
field for field as in the source. -/
def migrateRec (r : Rec) : Rec :=
  [("Date", jget r "date" (.str "")),
   ("line", jget r "line" (.str "")),
   ("section", jget r "section" (.str "")),
   ("asset_id", jget r "equipment" (.str "")),
   ("category", jget r "category" (.str "")),
   ("downtime_min", jget r "downtime" (.num 0)),
   ("root_cause", jget r "rootcause" (.str "")),
   ("action_taken", jget r "action" (.str "")),
   ("location_from", .str ""),
   ("location_to", .str ""),
   ("timestamp", jget r "timestamp" (.str "")),
   ("id", jget r "id" (.str ""))]

/-- The migration loop of `migrate`: one output record per input record,
in order. -/
def migrate (data : List Rec) : List Rec :=
  data.map migrateRec

/-! ## The aggregator (build_summary)

`df.sort_values(key)` uses pandas' default `kind="quicksort"` (numpy
introsort), which specifies only the ordering by the sort key and leaves
the relative order of tied rows unspecified (the algorithm is not
stable).  The model therefore picks one concrete correct sorting
algorithm, an insertion sort; theorems about the summary views must rely
only on consequences every correct sort shares — the output is a
permutation of the input arranged by the sort key — never on the tie
order of this particular algorithm.  `df.groupby(k)` sorts the distinct
group keys ascending and, with its default `dropna=True`, drops rows
whose group key is NA. -/

/-- Insert `x` in front of the first element `y` with `le x y`. -/
def insertLe (le : α → α → Bool) (x : α) : List α → List α
  | [] => [x]
  | y :: ys => if le x y then x :: y :: ys else y :: insertLe le x ys

/-- Insertion sort with Boolean comparator `le`: the concrete correct
sorting algorithm this model uses for `sort_values` (whose tie order the
program does not specify). -/
def isort (le : α → α → Bool) : List α → List α
  | [] => []
  | x :: xs => insertLe le x (isort le xs)

/-- Sort by the measure `m`, ordering measures by the strict comparator
`ltB`.  This realizes `sort_values` on one column; quantified theorems
about views built from it state only permutation and sortedness facts,
which hold for any correct sort and hence for pandas' unstable default
quicksort as well. -/
def isortKey [DecidableEq β] (m : α → β) (ltB : β → β → Bool)
    (l : List α) : List α :=
  isort (fun a b => decide (m a = m b) || ltB (m a) (m b)) l

/-- Lexicographic strict order on character lists by code point. -/
def charListLt : List Char → List Char → Bool
  | [], [] => false
  | [], _ :: _ => true
  | _ :: _, [] => false
  | c :: cs, d :: ds =>
    decide (c.toNat < d.toNat) ||
      (decide (c.toNat = d.toNat) && charListLt cs ds)

/-- Lexicographic strict order on strings (the order pandas uses when
sorting string group keys). -/
def strLt (s t : String) : Bool :=
  charListLt s.toList t.toList

/-- Constructor rank, used to order group keys of differing JSON types. -/
def JVal.rank : JVal → Nat
  | .null => 0
  | .bool _ => 1
  | .num _ => 2
  | .str _ => 3

/-- Strict ascending order on group keys: strings lexicographic, numbers
numeric, otherwise by constructor rank. -/
def jltB : JVal → JVal → Bool
  | .str s, .str t => strLt s t
  | .num p, .num q => decide (p < q)
  | .bool x, .bool y => !x && y
  | a, b => decide (a.rank < b.rank)

/-- Distinct group keys of `rows` under `key`, ascending, with NA (null)
keys dropped as by `groupby(..., dropna=True)`. -/
def jKeys (key : NormRow → JVal) (rows : List NormRow) : List JVal :=
  isortKey id jltB (((rows.map key).filter (fun k => decide (k ≠ .null))).dedup)

/-- The group of rows whose `key` equals `k`, in input order. -/
def grp (key : NormRow → JVal) (rows : List NormRow) (k : JVal) :
    List NormRow :=
  rows.filter (fun r => decide (key r = k))

/-- Total downtime of a row list (the `sum` aggregations). -/
def sumDT (rows : List NormRow) : Rat :=
  (rows.map NormRow.downtime).sum

/-- Row of a Count view (`.size()` aggregations). -/
structure CountRow where
  key : JVal
  Count : Nat
  deriving DecidableEq, Repr

/-- Row of a TotalDowntimeMin view (`["downtime"].sum()` aggregations). -/
structure DtRow where
  key : JVal
  TotalDowntimeMin : Rat
  deriving DecidableEq, Repr

/-- Row of the monthly downtime view (month keys are strings). -/
structure MonthRow where
  month : String
  TotalDowntimeMin : Rat
  deriving DecidableEq, Repr

/-- Row of the category view with its three aggregated columns. -/
structure CatRow where
  key : JVal
  Count : Nat
  TotalDowntimeMin : Rat
  AvgDowntimeMin : Rat
  deriving DecidableEq, Repr

/-- Grouped count table (keys ascending) before the value sort. -/
def countTable (key : NormRow → JVal) (rows : List NormRow) :
    List CountRow :=
  (jKeys key rows).map (fun k => { key := k, Count := (grp key rows k).length })

/-- Grouped downtime-sum table (keys ascending) before the value sort. -/
def dtTable (key : NormRow → JVal) (rows : List NormRow) : List DtRow :=
  (jKeys key rows).map
    (fun k => { key := k, TotalDowntimeMin := sumDT (grp key rows k) })

/-- Distinct month keys of `rows`, ascending (month strings are never NA
since `astype(str)` renders NaT as the string "NaT"). -/
def monthKeys (rows : List NormRow) : List String :=
  isortKey id strLt ((rows.map NormRow.month).dedup)

/-- Rows of one month group, in input order. -/
def monthGrp (rows : List NormRow) (mo : String) : List NormRow :=
  rows.filter (fun r => decide (r.month = mo))

/-- Grouped monthly downtime table (month keys ascending). -/
def monthTable (rows : List NormRow) : List MonthRow :=
  (monthKeys rows).map
    (fun mo => { month := mo, TotalDowntimeMin := sumDT (monthGrp rows mo) })

/-- Grouped category table with Count, TotalDowntimeMin and
AvgDowntimeMin (= mean = sum / size), keys ascending. -/
def catTable (rows : List NormRow) : List CatRow :=
  (jKeys NormRow.category rows).map (fun k =>
    { key := k
      Count := (grp NormRow.category rows k).length
      TotalDowntimeMin := sumDT (grp NormRow.category rows k)
      AvgDowntimeMin :=
        sumDT (grp NormRow.category rows k) /
          ((grp NormRow.category rows k).length : Rat) })

/-- Sheet 01_ByLine_Count: counts by line, Count descending. -/
def byLineCount (rows : List NormRow) : List CountRow :=
  isortKey CountRow.Count (fun x y => decide (y < x))
    (countTable NormRow.line rows)

/-- Sheet 02_ByLine_DowntimeMin: downtime by line, total descending. -/
def byLineDt (rows : List NormRow) : List DtRow :=
  isortKey DtRow.TotalDowntimeMin (fun x y => decide (y < x))
    (dtTable NormRow.line rows)

/-- Sheet 03_ByMonth_DowntimeMin: downtime by month, month ascending. -/
def byMonthDt (rows : List NormRow) : List MonthRow :=
  isortKey MonthRow.month strLt (monthTable rows)

/-- Sheet 04_ByCategory: category stats, TotalDowntimeMin descending. -/
def byCategory (rows : List NormRow) : List CatRow :=
  isortKey CatRow.TotalDowntimeMin (fun x y => decide (y < x))
    (catTable rows)

/-- Equipment count table sorted by Count descending (before `head(20)`). -/
def equipCountSorted (rows : List NormRow) : List CountRow :=
  isortKey CountRow.Count (fun x y => decide (y < x))
    (countTable NormRow.equipment rows)

/-- Sheet 05_TopEquipment_Count: top 20 equipments by count. -/
def topEquipCount (rows : List NormRow) : List CountRow :=
  (equipCountSorted rows).take 20

/-- Equipment downtime table sorted descending (before `head(20)`). -/
def equipDtSorted (rows : List NormRow) : List DtRow :=
  isortKey DtRow.TotalDowntimeMin (fun x y => decide (y < x))
    (dtTable NormRow.equipment rows)

/-- Sheet 06_TopEquipment_DowntimeMin: top 20 equipments by downtime. -/
def topEquipDt (rows : List NormRow) : List DtRow :=
  (equipDtSorted rows).take 20

/-- Strict lexicographic order on (year, month, day) triples. -/
def triLt (a b : Nat × Nat × Nat) : Bool :=
  decide (a.1 < b.1) ||
    (decide (a.1 = b.1) &&
      (decide (a.2.1 < b.2.1) ||
        (decide (a.2.1 = b.2.1) && decide (a.2.2 < b.2.2))))

/-- Strict order on dates used by `sort_values("date")`: NaT sorts last
(pandas default na_position). -/
def dateLt : Option (Nat × Nat × Nat) → Option (Nat × Nat × Nat) → Bool
  | some a, some b => triLt a b
  | some _, none => true
  | none, _ => false

/-- Non-strict companion of `strLt`, used to state view sortedness. -/
def strLe (s t : String) : Bool :=
  decide (s = t) || strLt s t

/-- Non-strict companion of `dateLt`, used to state view sortedness. -/
def dateLe (x y : Option (Nat × Nat × Nat)) : Bool :=
  decide (x = y) || dateLt x y

/-- Sheet 99_Raw_Logs: the normalized rows sorted by date ascending. -/
def rawSorted (rows : List NormRow) : List NormRow :=
  isortKey NormRow.date dateLt rows

/-- The seven summary tables of `build_summary`. -/
structure Summary where
  byLineCount : List CountRow
  byLineDt : List DtRow
  byMonthDt : List MonthRow
  byCategory : List CatRow
  topEquipCount : List CountRow
  topEquipDt : List DtRow
  rawLogs : List NormRow
  deriving DecidableEq, Repr

/-- `build_summary` bundling the seven views. -/
def build_summary (rows : List NormRow) : Summary :=
  { byLineCount := byLineCount rows
    byLineDt := byLineDt rows
    byMonthDt := byMonthDt rows
    byCategory := byCategory rows
    topEquipCount := topEquipCount rows
    topEquipDt := topEquipDt rows
    rawLogs := rawSorted rows }

/-- The load-then-summarize pipeline of `main`: no summary artifact is
produced when `load_logs` fails. -/
def runPipeline (data : List Rec) : Except (List String) Summary :=
  (load_logs data).map (fun res => build_summary res.rows)

/-- The key list of every migrated record, in output order. -/
def newSchemaKeys : List String :=
  ["Date", "line", "section", "asset_id", "category", "downtime_min",
   "root_cause", "action_taken", "location_from", "location_to",
   "timestamp", "id"]

/-- Fields the old schema may populate. -/
def oldSchemaFields : List String :=
  ["date", "line", "section", "equipment", "category", "downtime",
   "rootcause", "action", "timestamp", "id"]

/-- A normalized row used to build concrete aggregation inputs. -/
def mkRow (line eq : JVal) (dt : Rat) : NormRow :=
  { date := none, month := "NaT", downtime := dt, line := line,
    sect := .str "", equipment := eq, category := .str "",
    rootcause := .str "", action := .str "" }

/-- The 41-row list: one record on equipment "" and two records on each
of twenty other equipments, so "" ranks 21st by count. -/
def c7rows : List NormRow :=
  mkRow (.str "L") (.str "") 1 :: (List.range 20).flatMap (fun i =>
    [mkRow (.str "L") (.str ("E" ++ toString i)) 1,
     mkRow (.str "L") (.str ("E" ++ toString i)) 1])

/-! ## Helper lemmas about the sorting and grouping combinators -/

theorem insertLe_perm (le : α → α → Bool) (x : α) :
    ∀ l : List α, List.Perm (insertLe le x l) (x :: l) := by
  intro l
  induction l with
  | nil => exact .refl _
  | cons y ys ih =>
    unfold insertLe
    split
    · exact .refl _
    · exact (ih.cons y).trans (List.Perm.swap x y ys)

theorem isort_perm (le : α → α → Bool) :
    ∀ l : List α, List.Perm (isort le l) l
  | [] => .refl _
  | x :: xs =>
    (insertLe_perm le x (isort le xs)).trans ((isort_perm le xs).cons x)

theorem isortKey_perm [DecidableEq β] (m : α → β) (ltB : β → β → Bool)
    (l : List α) : List.Perm (isortKey m ltB l) l :=
  isort_perm _ l

theorem insertLe_pairwise (le : α → α → Bool)
    (htot : ∀ x y, le x y = true ∨ le y x = true)
    (htrans : ∀ x y z, le x y = true → le y z = true → le x z = true)
    (x : α) (l : List α)
    (hl : List.Pairwise (fun a b => le a b = true) l) :
    List.Pairwise (fun a b => le a b = true) (insertLe le x l) := by
  induction l with
  | nil => exact List.pairwise_singleton _ x
  | cons y ys ih =>
    unfold insertLe
    rcases List.pairwise_cons.mp hl with ⟨hy, hys⟩
    by_cases hxy : le x y = true
    · rw [if_pos hxy]
      refine List.Pairwise.cons ?_ hl
      intro z hz
      rcases List.mem_cons.mp hz with rfl | hz
      · exact hxy
      · exact htrans x y z hxy (hy z hz)
    · rw [if_neg hxy]
      refine List.Pairwise.cons ?_ (ih hys)
      intro z hz
      rcases List.mem_cons.mp ((insertLe_perm le x ys).mem_iff.mp hz) with
        hzx | hz2
      · rw [hzx]
        exact (htot x y).resolve_left hxy
      · exact hy z hz2

theorem isort_pairwise (le : α → α → Bool)
    (htot : ∀ x y, le x y = true ∨ le y x = true)
    (htrans : ∀ x y z, le x y = true → le y z = true → le x z = true) :
    ∀ l : List α, List.Pairwise (fun a b => le a b = true) (isort le l)
  | [] => List.Pairwise.nil
  | x :: xs =>
    insertLe_pairwise le htot htrans x (isort le xs)
      (isort_pairwise le htot htrans xs)

/-- Sortedness of `isortKey`: given a trichotomous and transitive strict
comparator on the measures, consecutive output elements are ordered by
equal-or-less measure.  This is a property of any correct sort, so it
also holds for the program's unstable quicksort. -/
theorem isortKey_pairwise [DecidableEq β] (m : α → β) (ltB : β → β → Bool)
    (htri : ∀ x y : β, x = y ∨ ltB x y = true ∨ ltB y x = true)
    (htr : ∀ x y z : β, ltB x y = true → ltB y z = true → ltB x z = true)
    (l : List α) :
    List.Pairwise (fun a b => m a = m b ∨ ltB (m a) (m b) = true)
      (isortKey m ltB l) := by
  have htot : ∀ x y : α,
      (decide (m x = m y) || ltB (m x) (m y)) = true ∨
        (decide (m y = m x) || ltB (m y) (m x)) = true := by
    intro x y
    rcases htri (m x) (m y) with h | h | h
    · left; simp [h]
    · left; simp [h]
    · right; simp [h]
  have htrans : ∀ x y z : α,
      (decide (m x = m y) || ltB (m x) (m y)) = true →
        (decide (m y = m z) || ltB (m y) (m z)) = true →
          (decide (m x = m z) || ltB (m x) (m z)) = true := by
    intro x y z h1 h2
    simp only [Bool.or_eq_true, decide_eq_true_eq] at h1 h2 ⊢
    rcases h1 with h1 | h1 <;> rcases h2 with h2 | h2
    · exact .inl (h1.trans h2)
    · exact .inr (h1 ▸ h2)
    · exact .inr (h2 ▸ h1)
    · exact .inr (htr _ _ _ h1 h2)
  have h := isort_pairwise _ htot htrans l
  refine h.imp ?_
  intro a b hab
  simpa [Bool.or_eq_true, decide_eq_true_eq] using hab

theorem descLt_tri {γ : Type} [LinearOrder γ] (x y : γ) :
    x = y ∨ decide (y < x) = true ∨ decide (x < y) = true := by
  rcases lt_trichotomy x y with h | h | h
  · right; right; simpa using h
  · left; exact h
  · right; left; simpa using h

theorem descLt_trans {γ : Type} [LinearOrder γ] (x y z : γ)
    (h1 : decide (y < x) = true) (h2 : decide (z < y) = true) :
    decide (z < x) = true := by
  simp only [decide_eq_true_eq] at h1 h2 ⊢
  exact lt_trans h2 h1

/-- The descending value sorts of the views order consecutive rows by
non-increasing measure. -/
theorem isortKey_sorted_desc {γ : Type} [DecidableEq γ] [LinearOrder γ]
    (m : α → γ) (l : List α) :
    List.Pairwise (fun a b => m b ≤ m a)
      (isortKey m (fun x y => decide (y < x)) l) := by
  have h := isortKey_pairwise m (fun x y => decide (y < x))
    (fun x y => descLt_tri x y) (fun x y z => descLt_trans x y z) l
  refine h.imp ?_
  intro a b hab
  rcases hab with hab | hab
  · exact le_of_eq hab.symm
  · simp only [decide_eq_true_eq] at hab
    exact le_of_lt hab

theorem charListLt_trans :
    ∀ as bs cs : List Char, charListLt as bs = true →
      charListLt bs cs = true → charListLt as cs = true := by
  intro as
  induction as with
  | nil =>
    intro bs cs h1 h2
    match bs, cs with
    | [], _ => exact absurd h1 (by simp [charListLt])
    | _ :: _, [] => exact absurd h2 (by simp [charListLt])
    | _ :: _, _ :: _ => simp [charListLt]
  | cons a as ih =>
    intro bs cs h1 h2
    match bs, cs with
    | [], _ => exact absurd h1 (by simp [charListLt])
    | _ :: _, [] => exact absurd h2 (by simp [charListLt])
    | b :: bs, c :: cs =>
      simp only [charListLt, Bool.or_eq_true, Bool.and_eq_true,
        decide_eq_true_eq] at h1 h2 ⊢
      rcases h1 with h1 | ⟨h1e, h1r⟩ <;> rcases h2 with h2 | ⟨h2e, h2r⟩
      · exact .inl (by omega)
      · exact .inl (by omega)
      · exact .inl (by omega)
      · exact .inr ⟨by omega, ih bs cs h1r h2r⟩

theorem char_eq_of_toNat_eq {a b : Char} (h : a.toNat = b.toNat) :
    a = b := by
  have := congrArg Char.ofNat h
  rwa [Char.ofNat_toNat, Char.ofNat_toNat] at this

theorem charListLt_trichotomy :
    ∀ as bs : List Char,
      as = bs ∨ charListLt as bs = true ∨ charListLt bs as = true
  | [], [] => .inl rfl
  | [], _ :: _ => .inr (.inl (by simp [charListLt]))
  | _ :: _, [] => .inr (.inr (by simp [charListLt]))
  | a :: as, b :: bs => by
    rcases Nat.lt_trichotomy a.toNat b.toNat with h | h | h
    · exact .inr (.inl (by simp [charListLt, h]))
    · have hab : a = b := char_eq_of_toNat_eq h
      rcases charListLt_trichotomy as bs with h2 | h2 | h2
      · exact .inl (by rw [hab, h2])
      · exact .inr (.inl (by simp [charListLt, h, h2]))
      · exact .inr (.inr (by simp [charListLt, h.symm, h2]))
    · exact .inr (.inr (by simp [charListLt, h]))

theorem string_eq_of_toList_eq {s t : String} (h : s.toList = t.toList) :
    s = t := by
  cases s
  cases t
  simp_all [String.toList]

theorem strLt_trichotomy (s t : String) :
    s = t ∨ strLt s t = true ∨ strLt t s = true := by
  rcases charListLt_trichotomy s.toList t.toList with h | h | h
  · exact .inl (string_eq_of_toList_eq h)
  · exact .inr (.inl h)
  · exact .inr (.inr h)

theorem strLt_trans (s t u : String) (h1 : strLt s t = true)
    (h2 : strLt t u = true) : strLt s u = true :=
  charListLt_trans s.toList t.toList u.toList h1 h2

/-- The month view orders consecutive rows by non-decreasing month. -/
theorem isortKey_sorted_str (m : α → String) (l : List α) :
    List.Pairwise (fun a b => strLe (m a) (m b) = true)
      (isortKey m strLt l) := by
  have h := isortKey_pairwise m strLt strLt_trichotomy strLt_trans l
  refine h.imp ?_
  intro a b hab
  rcases hab with hab | hab
  · simp [strLe, hab]
  · simp [strLe, hab]

theorem triLt_trans (a b c : Nat × Nat × Nat) (h1 : triLt a b = true)
    (h2 : triLt b c = true) : triLt a c = true := by
  simp only [triLt, Bool.or_eq_true, Bool.and_eq_true,
    decide_eq_true_eq] at h1 h2 ⊢
  omega

theorem triLt_trichotomy (a b : Nat × Nat × Nat) :
    a = b ∨ triLt a b = true ∨ triLt b a = true := by
  have h : (a.1 = b.1 ∧ a.2.1 = b.2.1 ∧ a.2.2 = b.2.2) ∨
      triLt a b = true ∨ triLt b a = true := by
    simp only [triLt, Bool.or_eq_true, Bool.and_eq_true, decide_eq_true_eq]
    omega
  rcases h with ⟨h1, h2, h3⟩ | h | h
  · exact .inl (Prod.ext h1 (Prod.ext h2 h3))
  · exact .inr (.inl h)
  · exact .inr (.inr h)

theorem dateLt_trans (x y z : Option (Nat × Nat × Nat))
    (h1 : dateLt x y = true) (h2 : dateLt y z = true) :
    dateLt x z = true := by
  match x, y, z with
  | some a, some b, some c => exact triLt_trans a b c h1 h2
  | some _, some _, none => rfl
  | some _, none, _ => exact absurd h2 (by simp [dateLt])
  | none, _, _ => exact absurd h1 (by simp [dateLt])

theorem dateLt_trichotomy (x y : Option (Nat × Nat × Nat)) :
    x = y ∨ dateLt x y = true ∨ dateLt y x = true := by
  match x, y with
  | none, none => exact .inl rfl
  | none, some b => exact .inr (.inr rfl)
  | some a, none => exact .inr (.inl rfl)
  | some a, some b =>
    rcases triLt_trichotomy a b with h | h | h
    · exact .inl (by rw [h])
    · exact .inr (.inl h)
    · exact .inr (.inr h)

/-- The raw-log sort orders consecutive rows by non-decreasing date with
NaT last. -/
theorem isortKey_sorted_date (m : α → Option (Nat × Nat × Nat))
    (l : List α) :
    List.Pairwise (fun a b => dateLe (m a) (m b) = true)
      (isortKey m dateLt l) := by
  have h := isortKey_pairwise m dateLt dateLt_trichotomy dateLt_trans l
  refine h.imp ?_
  intro a b hab
  rcases hab with hab | hab
  · simp [dateLe, hab]
  · simp [dateLe, hab]

theorem mem_jKeys (key : NormRow → JVal) (rows : List NormRow) (k : JVal)
    (hk : k ∈ rows.map key) (hnn : k ≠ .null) : k ∈ jKeys key rows := by
  unfold jKeys isortKey
  rw [(isort_perm _ _).mem_iff, List.mem_dedup, List.mem_filter]
  exact ⟨hk, by simpa using hnn⟩

theorem jKeys_nodup (key : NormRow → JVal) (rows : List NormRow) :
    (jKeys key rows).Nodup := by
  unfold jKeys isortKey
  exact ((isort_perm _ _).nodup_iff).mpr (List.nodup_dedup _)

theorem countTable_keys (key : NormRow → JVal) (rows : List NormRow) :
    (countTable key rows).map CountRow.key = jKeys key rows := by
  unfold countTable
  rw [List.map_map]
  exact List.map_id _

theorem dtTable_keys (key : NormRow → JVal) (rows : List NormRow) :
    (dtTable key rows).map DtRow.key = jKeys key rows := by
  unfold dtTable
  rw [List.map_map]
  exact List.map_id _

/-- Summing a map that is `c` at the single occurrence of `k` and `0`
elsewhere gives `c`. -/
theorem sum_map_single (K : List JVal) (k : JVal) (c : Rat)
    (hnd : K.Nodup) (hk : k ∈ K) :
    (K.map (fun j => if k = j then c else 0)).sum = c := by
  induction K with
  | nil => cases hk
  | cons a as ih =>
    rw [List.map_cons, List.sum_cons]
    rcases List.mem_cons.mp hk with h | h
    · subst h
      have hno : k ∉ as := (List.nodup_cons.mp hnd).1
      have hz : (as.map (fun j => if k = j then c else 0)).sum = 0 := by
        apply List.sum_eq_zero
        intro x hx
        rcases List.mem_map.mp hx with ⟨j, hj, rfl⟩
        have : k ≠ j := fun he => hno (he ▸ hj)
        simp [this]
      simp [hz]
    · have hka : k ≠ a := by
        intro he
        exact (List.nodup_cons.mp hnd).1 (he ▸ h)
      rw [if_neg hka, ih (List.nodup_cons.mp hnd).2 h, zero_add]

/-- Partition lemma: grouping drops no row when every row key occurs in
the (duplicate-free) key list, so the per-group downtime sums add up to
the total downtime. -/
theorem grp_sum (key : NormRow → JVal) (rows : List NormRow)
    (K : List JVal) (hnd : K.Nodup) (hc : ∀ r ∈ rows, key r ∈ K) :
    (K.map (fun k => sumDT (grp key rows k))).sum = sumDT rows := by
  induction rows with
  | nil =>
    have : ∀ k : JVal, sumDT (grp key [] k) = 0 := by
      intro k; rfl
    simp only [this, sumDT, List.map_nil, List.sum_nil]
    exact List.sum_eq_zero (by
      intro x hx
      rcases List.mem_map.mp hx with ⟨j, _, rfl⟩
      rfl)
  | cons r rs ih =>
    have hsplit : ∀ k, sumDT (grp key (r :: rs) k) =
        (if key r = k then r.downtime else 0) + sumDT (grp key rs k) := by
      intro k
      unfold grp sumDT
      rw [List.filter_cons]
      by_cases h : key r = k
      · simp [h]
      · simp [h]
    simp only [hsplit]
    rw [List.sum_map_add, sum_map_single K (key r) r.downtime hnd
      (hc r (List.mem_cons_self r rs)),
      ih (fun x hx => hc x (List.mem_cons_of_mem r hx))]
    show r.downtime + sumDT rs = sumDT (r :: rs)
    unfold sumDT
    rw [List.map_cons, List.sum_cons]

/-- The normalizer never leaves a null in a text field: `fillna` and the
empty-string defaults replace it. -/
theorem fillS_ne_null (c : Option JVal) : fillS c ≠ .null := by
  unfold fillS
  match c with
  | none => simp
  | some .null => simp
  | some (.str s) => simp
  | some (.num q) => simp
  | some (.bool b) => simp

theorem textField_ne_null (data : List Rec) (r : Rec) (c : String) :
    textField data r c ≠ .null := by
  unfold textField
  split
  · exact fillS_ne_null _
  · simp

theorem mappedField_ne_null (data : List Rec) (r : Rec) (t fb : String) :
    mappedField data r t fb ≠ .null := by
  unfold mappedField
  split
  · exact fillS_ne_null _
  · split
    · exact fillS_ne_null _
    · simp

/-! ## Record-level lemmas -/

theorem hasCol_of_mem {data : List Rec} {x : Rec} {c : String}
    (hx : x ∈ data) (h : (getF x c).isSome = true) : hasCol data c = true := by
  unfold hasCol
  exact List.any_eq_true.mpr ⟨x, hx, h⟩

theorem hasCol_eq_false {data : List Rec} {c : String}
    (h : ∀ x ∈ data, getF x c = none) : hasCol data c = false := by
  unfold hasCol
  rw [List.any_eq_false]
  intro x hx
  rw [h x hx]
  simp

theorem getF_eq_none_of_forall {r : Rec} {k : String}
    (h : ∀ kv ∈ r, kv.1 ≠ k) : getF r k = none := by
  induction r with
  | nil => rfl
  | cons a as ih =>
    have h1 : a.1 ≠ k := h a (List.mem_cons_self a as)
    have h2 : (k == a.1) = false := by
      simp [beq_eq_false_iff_ne]
      exact fun he => h1 he.symm
    show List.lookup k (a :: as) = none
    rw [show (a : String × JVal) = (a.1, a.2) from rfl, List.lookup_cons, h2]
    exact ih (fun kv hkv => h kv (List.mem_cons_of_mem a hkv))

theorem migrateRec_keys (r : Rec) :
    (migrateRec r).map Prod.fst = newSchemaKeys := rfl

theorem getF_migrateRec_downtime (r : Rec) :
    getF (migrateRec r) "downtime" = none := by
  simp [migrateRec, getF, List.lookup]

theorem getF_migrateRec_downtime_min (r : Rec) :
    getF (migrateRec r) "downtime_min" = some (jget r "downtime" (.num 0)) := by
  simp [migrateRec, getF, List.lookup]

theorem getF_migrateRec_Date (r : Rec) :
    getF (migrateRec r) "Date" = some (jget r "date" (.str "")) := rfl

theorem getF_migrateRec_line (r : Rec) :
    getF (migrateRec r) "line" = some (jget r "line" (.str "")) := by
  simp [migrateRec, getF, List.lookup]

theorem getF_migrateRec_section (r : Rec) :
    getF (migrateRec r) "section" = some (jget r "section" (.str "")) := by
  simp [migrateRec, getF, List.lookup]

theorem getF_migrateRec_category (r : Rec) :
    getF (migrateRec r) "category" = some (jget r "category" (.str "")) := by
  simp [migrateRec, getF, List.lookup]

/-! ## Claim theorems -/

/-- C4: for every normalized record list (the rows `load_logs` produces
from any raw record list), the sum of the TotalDowntimeMin column of the
By-line downtime view equals the sum of the downtime field over all
normalized records: the grouping drops no record. -/
theorem c4_byLineDt_sum (data : List Rec) :
    ((byLineDt (loadRows data)).map DtRow.TotalDowntimeMin).sum =
      sumDT (loadRows data) := by
  unfold byLineDt
  rw [((isortKey_perm DtRow.TotalDowntimeMin (fun x y => decide (y < x))
    (dtTable NormRow.line (loadRows data))).map DtRow.TotalDowntimeMin).sum_eq]
  have hmm : (dtTable NormRow.line (loadRows data)).map DtRow.TotalDowntimeMin
      = (jKeys NormRow.line (loadRows data)).map
          (fun k => sumDT (grp NormRow.line (loadRows data) k)) := by
    unfold dtTable
    rw [List.map_map]
    rfl
  rw [hmm]
  apply grp_sum
  · exact jKeys_nodup _ _
  · intro r hr
    apply mem_jKeys
    · exact List.mem_map.mpr ⟨r, hr, rfl⟩
    · rcases List.mem_map.mp hr with ⟨r0, _, rfl⟩
      exact textField_ne_null data r0 "line"

/-- C6: the migrator is one-to-one and order preserving, applies the five
renames, passes line, section, category, timestamp and id through
unchanged, and introduces location_from and location_to as empty
strings. -/
theorem c6_migrate_shape (data : List Rec) (r : Rec) (i : Nat) (v : JVal) :
    ((migrate data).length = data.length
      ∧ (migrate data)[i]? = (data[i]?).map migrateRec)
    ∧ ((getF r "date" = some v → getF (migrateRec r) "Date" = some v)
      ∧ (getF r "equipment" = some v → getF (migrateRec r) "asset_id" = some v)
      ∧ (getF r "downtime" = some v → getF (migrateRec r) "downtime_min" = some v)
      ∧ (getF r "rootcause" = some v → getF (migrateRec r) "root_cause" = some v)
      ∧ (getF r "action" = some v → getF (migrateRec r) "action_taken" = some v))
    ∧ ((getF r "line" = some v → getF (migrateRec r) "line" = some v)
      ∧ (getF r "section" = some v → getF (migrateRec r) "section" = some v)
      ∧ (getF r "category" = some v → getF (migrateRec r) "category" = some v)
      ∧ (getF r "timestamp" = some v → getF (migrateRec r) "timestamp" = some v)
      ∧ (getF r "id" = some v → getF (migrateRec r) "id" = some v))
    ∧ (getF (migrateRec r) "location_from" = some (.str "")
      ∧ getF (migrateRec r) "location_to" = some (.str "")) := by
  refine ⟨⟨by simp [migrate], by simp [migrate]⟩,
    ⟨?_, ?_, ?_, ?_, ?_⟩, ⟨?_, ?_, ?_, ?_, ?_⟩, ?_, ?_⟩ <;>
    first
      | (intro h; simp only [getF] at h;
          simp [migrateRec, getF, jget, List.lookup, h])
      | simp [migrateRec, getF, List.lookup]

/-- Witness for c6_migrate_shape at a concrete old-schema record. -/
theorem c6_migrate_shape_witness :
    getF [("date", JVal.str "2024-01-05"), ("line", JVal.str "A")] "line" =
        some (JVal.str "A")
    ∧ getF (migrateRec [("date", JVal.str "2024-01-05"),
        ("line", JVal.str "A")]) "line" = some (JVal.str "A") := by
  refine ⟨by decide, ?_⟩
  exact (c6_migrate_shape [] [("date", JVal.str "2024-01-05"),
    ("line", JVal.str "A")] 0 (JVal.str "A")).2.2.1.1 (by decide)

/-- C9: a migrated record has exactly the twelve new-schema keys; every
input field outside the rename/passthrough lists (including pre-existing
location_from / location_to values) is dropped; a missing downtime
defaults to 0 while every other missing source field defaults to the
empty string. -/
theorem c9_migrate_fields (r : Rec) (k : String) :
    ((migrateRec r).map Prod.fst = newSchemaKeys)
    ∧ (k ∉ newSchemaKeys → getF (migrateRec r) k = none)
    ∧ (getF (migrateRec r) "location_from" = some (.str "")
      ∧ getF (migrateRec r) "location_to" = some (.str ""))
    ∧ (getF r "downtime" = none →
      getF (migrateRec r) "downtime_min" = some (.num 0))
    ∧ ((getF r "date" = none → getF (migrateRec r) "Date" = some (.str ""))
      ∧ (getF r "line" = none → getF (migrateRec r) "line" = some (.str ""))
      ∧ (getF r "section" = none → getF (migrateRec r) "section" = some (.str ""))
      ∧ (getF r "equipment" = none → getF (migrateRec r) "asset_id" = some (.str ""))
      ∧ (getF r "category" = none → getF (migrateRec r) "category" = some (.str ""))
      ∧ (getF r "rootcause" = none → getF (migrateRec r) "root_cause" = some (.str ""))
      ∧ (getF r "action" = none → getF (migrateRec r) "action_taken" = some (.str ""))
      ∧ (getF r "timestamp" = none → getF (migrateRec r) "timestamp" = some (.str ""))
      ∧ (getF r "id" = none → getF (migrateRec r) "id" = some (.str ""))) := by
  refine ⟨rfl, ?_, ⟨?_, ?_⟩, ?_, ?_, ?_, ?_, ?_, ?_, ?_, ?_, ?_, ?_⟩
  · intro hk
    simp only [newSchemaKeys, List.mem_cons, List.not_mem_nil, or_false,
      not_or] at hk
    obtain ⟨h1, h2, h3, h4, h5, h6, h7, h8, h9, h10, h11, h12⟩ := hk
    simp [migrateRec, getF, List.lookup, beq_false_of_ne h1,
      beq_false_of_ne h2, beq_false_of_ne h3, beq_false_of_ne h4,
      beq_false_of_ne h5, beq_false_of_ne h6, beq_false_of_ne h7,
      beq_false_of_ne h8, beq_false_of_ne h9, beq_false_of_ne h10,
      beq_false_of_ne h11, beq_false_of_ne h12]
  all_goals
    first
      | (intro h; simp only [getF] at h;
          simp [migrateRec, getF, jget, List.lookup, h])
      | simp [migrateRec, getF, List.lookup]

/-- Witness for c9_migrate_fields at a record carrying an extra field. -/
theorem c9_migrate_fields_witness :
    ("extra" ∉ newSchemaKeys)
    ∧ getF (migrateRec [("extra", JVal.str "x"),
        ("location_from", JVal.str "keep")]) "extra" = none := by
  refine ⟨by decide, ?_⟩
  exact (c9_migrate_fields [("extra", JVal.str "x"),
    ("location_from", JVal.str "keep")] "extra").2.1 (by decide)

/-- C10: fallback fields are resolved per input list, not per record:
when some record supplies the preferred field name, the fallback column
is ignored for every record, and a record lacking the preferred field
receives the default even when it carries the fallback field. -/
theorem c10_list_level_fallback (data : List Rec) (r : Rec) (_hr : r ∈ data) :
    (hasCol data "downtime" = true → getF r "downtime" = none →
      (normRow data r).downtime = 0)
    ∧ (hasCol data "equipment" = true → getF r "equipment" = none →
      (getF r "asset_id").isSome = true → (normRow data r).equipment = .str "")
    ∧ (hasCol data "rootcause" = true → getF r "rootcause" = none →
      (getF r "root_cause").isSome = true → (normRow data r).rootcause = .str "")
    ∧ (hasCol data "action" = true → getF r "action" = none →
      (getF r "action_taken").isSome = true → (normRow data r).action = .str "") := by
  refine ⟨?_, ?_, ?_, ?_⟩
  · intro h1 h2
    simp [normRow, dtCell, h1, h2, coerceNum]
  · intro h1 h2 _
    simp [normRow, mappedField, h1, h2, fillS]
  · intro h1 h2 _
    simp [normRow, mappedField, h1, h2, fillS]
  · intro h1 h2 _
    simp [normRow, mappedField, h1, h2, fillS]

/-- Witness for c10_list_level_fallback: the second record carries only
the fallback names and still gets the defaults. -/
theorem c10_list_level_fallback_witness :
    ([("downtime_min", JVal.num 7), ("asset_id", JVal.str "P2"),
        ("root_cause", JVal.str "rc2"), ("action_taken", JVal.str "a2")] ∈
      ([[("downtime", JVal.num 5), ("equipment", JVal.str "P1"),
          ("rootcause", JVal.str "rc"), ("action", JVal.str "a")],
        [("downtime_min", JVal.num 7), ("asset_id", JVal.str "P2"),
          ("root_cause", JVal.str "rc2"), ("action_taken", JVal.str "a2")]] :
        List Rec))
    ∧ (normRow
        [[("downtime", JVal.num 5), ("equipment", JVal.str "P1"),
            ("rootcause", JVal.str "rc"), ("action", JVal.str "a")],
          [("downtime_min", JVal.num 7), ("asset_id", JVal.str "P2"),
            ("root_cause", JVal.str "rc2"), ("action_taken", JVal.str "a2")]]
        [("downtime_min", JVal.num 7), ("asset_id", JVal.str "P2"),
          ("root_cause", JVal.str "rc2"), ("action_taken", JVal.str "a2")]).downtime
      = 0 := by
  refine ⟨by decide, ?_⟩
  refine (c10_list_level_fallback _
    [("downtime_min", JVal.num 7), ("asset_id", JVal.str "P2"),
      ("root_cause", JVal.str "rc2"), ("action_taken", JVal.str "a2")]
    ?_).1 (by decide) (by decide)
  decide

/-- C2 counterexample: the claim resolves downtime per record, but the
code resolves it per column.  In this list the first record supplies
`downtime`, so the second record, which carries only `downtime_min` = 7,
does not fall back to it and gets 0 instead of 7. -/
theorem c2_counterexample :
    (load_logs [[("date", JVal.str "2024-01-05"), ("downtime", JVal.num 5)],
        [("date", JVal.str "2024-01-05"), ("downtime_min", JVal.num 7)]]).map
      (fun res => res.rows.map NormRow.downtime) = .ok [5, 0]
    ∧ getF [("date", JVal.str "2024-01-05"), ("downtime_min", JVal.num 7)]
        "downtime" = none
    ∧ getF [("date", JVal.str "2024-01-05"), ("downtime_min", JVal.num 7)]
        "downtime_min" = some (JVal.num 7)
    ∧ coerceNum (some (JVal.num 7)) = 7
    ∧ (0 : Rat) ≠ 7 :=
  ⟨rfl, by decide, by decide, by decide, by decide⟩

/-- C2 amended: downtime resolution happens per input list (column
level): the `downtime` column is used for every record when any record
supplies it, else the `downtime_min` column when any record supplies
that, else every record gets 0; the resolved cell is coerced to a number
with missing or non-numeric cells becoming 0, and downtime contents
never make `load_logs` fail. -/
theorem c2_downtime_resolution (data : List Rec) (r : Rec) (_hr : r ∈ data) :
    (hasCol data "downtime" = true →
      (normRow data r).downtime = coerceNum (getF r "downtime"))
    ∧ (hasCol data "downtime" = false → hasCol data "downtime_min" = true →
      (normRow data r).downtime = coerceNum (getF r "downtime_min"))
    ∧ (hasCol data "downtime" = false → hasCol data "downtime_min" = false →
      (normRow data r).downtime = 0)
    ∧ (∀ c : Option JVal, isNA c = true → coerceNum c = 0)
    ∧ (∀ v : JVal, toNumQ v = none → coerceNum (some v) = 0)
    ∧ ((hasCol data "date" || hasCol data "Date") = true →
      (load_logs data).isOk = true) := by
  refine ⟨?_, ?_, ?_, ?_, ?_, ?_⟩
  · intro h1
    simp [normRow, dtCell, h1]
  · intro h1 h2
    simp [normRow, dtCell, h1, h2]
  · intro h1 h2
    simp [normRow, dtCell, h1, h2, coerceNum, toNumQ]
  · intro c hc
    match c with
    | none => rfl
    | some .null => rfl
    | some (.str s) => simp [isNA] at hc
    | some (.num q) => simp [isNA] at hc
    | some (.bool b) => simp [isNA] at hc
  · intro v hv
    simp [coerceNum, hv]
  · intro h
    simp [load_logs, h, Except.isOk, Except.toBool]

/-- Witness for c2_downtime_resolution at a list whose only record has a
non-numeric downtime. -/
theorem c2_downtime_resolution_witness :
    ([("date", JVal.str "2024-01-05"), ("downtime", JVal.str "n/a")] ∈
      ([[("date", JVal.str "2024-01-05"), ("downtime", JVal.str "n/a")]] :
        List Rec))
    ∧ hasCol [[("date", JVal.str "2024-01-05"),
        ("downtime", JVal.str "n/a")]] "downtime" = true
    ∧ (normRow [[("date", JVal.str "2024-01-05"),
          ("downtime", JVal.str "n/a")]]
        [("date", JVal.str "2024-01-05"), ("downtime", JVal.str "n/a")]).downtime
      = coerceNum (getF [("date", JVal.str "2024-01-05"),
          ("downtime", JVal.str "n/a")] "downtime") := by
  refine ⟨by decide, by decide, ?_⟩
  exact (c2_downtime_resolution _ _ (by decide)).1 (by decide)

/-- C3 counterexample: a record missing both `date` and `Date` does not
make the normalizer fail when another record supplies a date column; the
run succeeds and the record is kept. -/
theorem c3_counterexample :
    (load_logs [[("date", JVal.str "2024-01-05")],
        [("line", JVal.str "A")]]).isOk = true
    ∧ getF [("line", JVal.str "A")] "date" = none
    ∧ getF [("line", JVal.str "A")] "Date" = none
    ∧ ([("line", JVal.str "A")] ∈
        ([[("date", JVal.str "2024-01-05")], [("line", JVal.str "A")]] :
          List Rec)) := by
  refine ⟨?_, by decide, by decide, by decide⟩
  rfl

/-- C3 amended: the normalizer fails, with an error listing the
available column names, exactly when no record of the input supplies a
`date` or `Date` field (column-level check); in that case the pipeline
produces no summary artifact, and whenever a date column is resolvable
no such error is raised. -/
theorem c3_schema_error (data : List Rec) :
    (hasCol data "date" = false → hasCol data "Date" = false →
      (load_logs data = .error (inputCols data)
        ∧ runPipeline data = .error (inputCols data)))
    ∧ ((hasCol data "date" = true ∨ hasCol data "Date" = true) →
      (load_logs data).isOk = true) := by
  constructor
  · intro h1 h2
    constructor
    · simp [load_logs, h1, h2]
    · simp [runPipeline, load_logs, h1, h2, Except.map]
  · intro h
    rcases h with h | h <;> simp [load_logs, h, Except.isOk, Except.toBool]

/-- Witness for c3_schema_error at a dateless single-record list. -/
theorem c3_schema_error_witness :
    hasCol [[("line", JVal.str "A")]] "date" = false
    ∧ hasCol [[("line", JVal.str "A")]] "Date" = false
    ∧ load_logs [[("line", JVal.str "A")]] = .error ["line"] := by
  refine ⟨by decide, by decide, ?_⟩
  have h := (c3_schema_error [[("line", JVal.str "A")]]).1 (by decide)
    (by decide)
  exact h.1.trans (by rfl)

theorem mem_addCol_self (cs : List String) (c : String) : c ∈ addCol cs c := by
  unfold addCol
  split
  · assumption
  · exact List.mem_append_right cs (List.mem_singleton.mpr rfl)

theorem mem_addCol_of_mem {cs : List String} {a : String} (c : String)
    (h : a ∈ cs) : a ∈ addCol cs c := by
  unfold addCol
  split
  · exact h
  · exact List.mem_append_left _ h

theorem mem_foldl_addCol_of_mem {a : String} :
    ∀ (ks : List String) (init : List String), a ∈ init →
      a ∈ ks.foldl addCol init
  | [], _, h => h
  | k :: ks, init, h =>
    mem_foldl_addCol_of_mem ks (addCol init k) (mem_addCol_of_mem k h)

theorem mem_foldl_addCol {a : String} :
    ∀ (ks : List String) (init : List String), a ∈ ks →
      a ∈ ks.foldl addCol init := by
  intro ks
  induction ks with
  | nil => intro _ h; cases h
  | cons k ks ih =>
    intro init h
    rcases List.mem_cons.mp h with h | h
    · subst h
      exact mem_foldl_addCol_of_mem ks _ (mem_addCol_self init a)
    · exact ih _ h

theorem mem_outCols (data : List Rec) (c : String) (hc : c ∈ assignedCols) :
    c ∈ outCols data := by
  unfold outCols
  exact mem_foldl_addCol assignedCols (inputCols data) hc

theorem normRow_downtime (data : List Rec) (r : Rec) :
    (normRow data r).downtime = coerceNum (dtCell data r) := rfl

/-- C1 counterexample: on a valid record list the output keeps the
original `Date` column (ten columns, not exactly the nine canonical
ones), and a negative input downtime stays negative. -/
theorem c1_counterexample :
    (load_logs [[("Date", JVal.str "2024-01-05"),
        ("downtime", JVal.num (-5))]]).map LoadResult.cols =
      .ok ["Date", "downtime", "date", "month", "line", "section",
        "category", "equipment", "rootcause", "action"]
    ∧ (load_logs [[("Date", JVal.str "2024-01-05"),
        ("downtime", JVal.num (-5))]]).map
        (fun res => res.rows.map NormRow.downtime) = .ok [-5]
    ∧ "Date" ∉ assignedCols
    ∧ ((-5 : Rat) < 0) :=
  ⟨by rfl, by rfl, by decide, by decide⟩

/-- C1 amended: for every valid raw record list the normalizer succeeds,
every record of the output carries (at least) the nine canonical fields
— the original input fields are retained alongside them — no record is
dropped, and the downtime field is always a number: a missing or
non-numeric downtime cell is coerced to 0 (but a negative numeric input
stays negative). -/
theorem c1_canonical_fields (data : List Rec)
    (h : (hasCol data "date" || hasCol data "Date") = true) :
    (load_logs data = .ok { cols := outCols data, rows := loadRows data })
    ∧ (∀ c ∈ assignedCols, c ∈ outCols data)
    ∧ (loadRows data).length = data.length
    ∧ (∀ r ∈ data, isNA (dtCell data r) = true → (normRow data r).downtime = 0)
    ∧ (∀ r ∈ data, ∀ v, dtCell data r = some v → toNumQ v = none →
        (normRow data r).downtime = 0) := by
  refine ⟨by simp [load_logs, h], ?_, ?_, ?_, ?_⟩
  · intro c hc
    exact mem_outCols data c hc
  · exact List.length_map data (normRow data)
  · intro r _ hna
    rw [normRow_downtime]
    cases hcell : dtCell data r with
    | none => rfl
    | some v =>
      rw [hcell] at hna
      match v, hna with
      | .null, _ => rfl
      | .str s, hna => simp [isNA] at hna
      | .num q, hna => simp [isNA] at hna
      | .bool b, hna => simp [isNA] at hna
  · intro r _ v hcell hnum
    rw [normRow_downtime, hcell]
    show (toNumQ v).getD 0 = 0
    rw [hnum]
    rfl

/-- Witness for c1_canonical_fields at the spec scenario input. -/
theorem c1_canonical_fields_witness :
    ((hasCol [[("date", JVal.str "2024-01-05"), ("line", JVal.str "A"),
          ("downtime", JVal.num 30)]] "date" ||
        hasCol [[("date", JVal.str "2024-01-05"), ("line", JVal.str "A"),
          ("downtime", JVal.num 30)]] "Date") = true)
    ∧ (∀ c ∈ assignedCols,
        c ∈ (outCols [[("date", JVal.str "2024-01-05"),
          ("line", JVal.str "A"), ("downtime", JVal.num 30)]])) := by
  refine ⟨by decide, ?_⟩
  exact (c1_canonical_fields
    [[("date", JVal.str "2024-01-05"), ("line", JVal.str "A"),
      ("downtime", JVal.num 30)]] (by decide)).2.1

theorem hasCol_singleton (r : Rec) (c : String) :
    hasCol [r] c = (getF r c).isSome := by
  simp [hasCol]

theorem roundtrip_textField (olds : List Rec) (r : Rec) (hr : r ∈ olds)
    (c : String) (hc : getF (migrateRec r) c = some (jget r c (.str ""))) :
    textField (migrate olds) (migrateRec r) c = textField [r] r c := by
  have hcol : hasCol (migrate olds) c = true :=
    hasCol_of_mem (List.mem_map.mpr ⟨r, hr, rfl⟩) (by rw [hc]; rfl)
  cases hv : getF r c with
  | none =>
    have hs : hasCol [r] c = false := by rw [hasCol_singleton, hv]; rfl
    simp [textField, hcol, hs, hc, jget, hv, fillS]
  | some v =>
    have hs : hasCol [r] c = true := by rw [hasCol_singleton, hv]; rfl
    simp [textField, hcol, hs, hc, jget, hv]

theorem roundtrip_downtime (olds : List Rec) (r : Rec) (hr : r ∈ olds)
    (hdm : getF r "downtime_min" = none) :
    (normRow (migrate olds) (migrateRec r)).downtime =
      (normRow [r] r).downtime := by
  have hno : hasCol (migrate olds) "downtime" = false := by
    apply hasCol_eq_false
    intro x hx
    rcases List.mem_map.mp hx with ⟨y, _, rfl⟩
    exact getF_migrateRec_downtime y
  have hyes : hasCol (migrate olds) "downtime_min" = true :=
    hasCol_of_mem (List.mem_map.mpr ⟨r, hr, rfl⟩)
      (by rw [getF_migrateRec_downtime_min]; rfl)
  rw [normRow_downtime, normRow_downtime]
  cases hv : getF r "downtime" with
  | some v =>
    have h1 : hasCol [r] "downtime" = true := by
      rw [hasCol_singleton, hv]; rfl
    simp [dtCell, h1, hno, hyes, getF_migrateRec_downtime_min, jget, hv]
  | none =>
    have h1 : hasCol [r] "downtime" = false := by
      rw [hasCol_singleton, hv]; rfl
    have h2 : hasCol [r] "downtime_min" = false := by
      rw [hasCol_singleton, hdm]; rfl
    simp [dtCell, h1, h2, hno, hyes, getF_migrateRec_downtime_min, jget, hv,
      coerceNum, toNumQ]

/-- C5: migrating an old-schema record and loading the migrated list
back through the normalizer succeeds and recovers the same effective
line, section, category and downtime values as normalizing the original
old-schema record directly. -/
theorem c5_roundtrip (olds : List Rec) (r : Rec) (hr : r ∈ olds)
    (hold : ∀ kv ∈ r, kv.1 ∈ oldSchemaFields) :
    (load_logs (migrate olds)).isOk = true
    ∧ (∀ i : Nat, olds[i]? = some r →
        (loadRows (migrate olds))[i]? =
          some (normRow (migrate olds) (migrateRec r)))
    ∧ (normRow (migrate olds) (migrateRec r)).line = (normRow [r] r).line
    ∧ (normRow (migrate olds) (migrateRec r)).sect = (normRow [r] r).sect
    ∧ (normRow (migrate olds) (migrateRec r)).category =
        (normRow [r] r).category
    ∧ (normRow (migrate olds) (migrateRec r)).downtime =
        (normRow [r] r).downtime := by
  have hDate : hasCol (migrate olds) "Date" = true :=
    hasCol_of_mem (List.mem_map.mpr ⟨r, hr, rfl⟩)
      (by rw [getF_migrateRec_Date]; rfl)
  have hdm : getF r "downtime_min" = none := by
    apply getF_eq_none_of_forall
    intro kv hkv he
    have hmem := hold kv hkv
    rw [he] at hmem
    simp [oldSchemaFields] at hmem
  refine ⟨?_, ?_, ?_, ?_, ?_, ?_⟩
  · simp [load_logs, hDate, Except.isOk, Except.toBool]
  · intro i hi
    simp [loadRows, migrate, List.getElem?_map, hi]
  · exact roundtrip_textField olds r hr "line" (getF_migrateRec_line r)
  · exact roundtrip_textField olds r hr "section" (getF_migrateRec_section r)
  · exact roundtrip_textField olds r hr "category" (getF_migrateRec_category r)
  · exact roundtrip_downtime olds r hr hdm

/-- Witness for c5_roundtrip at a concrete old-schema record. -/
theorem c5_roundtrip_witness :
    ([("date", JVal.str "2024-01-05"), ("line", JVal.str "A"),
        ("downtime", JVal.num 30)] ∈
      ([[("date", JVal.str "2024-01-05"), ("line", JVal.str "A"),
          ("downtime", JVal.num 30)]] : List Rec))
    ∧ (∀ kv ∈ ([("date", JVal.str "2024-01-05"), ("line", JVal.str "A"),
        ("downtime", JVal.num 30)] : Rec), kv.1 ∈ oldSchemaFields)
    ∧ (normRow (migrate [[("date", JVal.str "2024-01-05"),
          ("line", JVal.str "A"), ("downtime", JVal.num 30)]])
        (migrateRec [("date", JVal.str "2024-01-05"),
          ("line", JVal.str "A"), ("downtime", JVal.num 30)])).downtime =
      (normRow [[("date", JVal.str "2024-01-05"), ("line", JVal.str "A"),
          ("downtime", JVal.num 30)]]
        [("date", JVal.str "2024-01-05"), ("line", JVal.str "A"),
          ("downtime", JVal.num 30)]).downtime := by
  refine ⟨by decide, by decide, ?_⟩
  exact (c5_roundtrip
    [[("date", JVal.str "2024-01-05"), ("line", JVal.str "A"),
      ("downtime", JVal.num 30)]]
    [("date", JVal.str "2024-01-05"), ("line", JVal.str "A"),
      ("downtime", JVal.num 30)] (by decide) (by decide)).2.2.2.2.2

/-- C7 counterexample: the empty-string equipment bucket exists but is
cut off by the top-20 truncation of the Top-equipment view, so it is
excluded from that summary view. -/
theorem c7_counterexample :
    (∃ r ∈ c7rows, r.equipment = .str "")
    ∧ JVal.str "" ∉ (topEquipCount c7rows).map CountRow.key := by
  constructor
  · exact ⟨mkRow (.str "L") (.str "") 1, List.mem_cons_self _ _, rfl⟩
  · decide

/-- C7 amended: an empty-string group key forms its own bucket: it is
never dropped from the By-line views, and in the Top-equipment views it
appears in the sorted grouped table, from which the view keeps only the
first 20 rows (so it can be cut by the truncation like any other
bucket). -/
theorem c7_empty_key_bucket (rows : List NormRow)
    (hline : ∃ r ∈ rows, r.line = .str "")
    (hequip : ∃ r ∈ rows, r.equipment = .str "") :
    JVal.str "" ∈ (byLineCount rows).map CountRow.key
    ∧ JVal.str "" ∈ (byLineDt rows).map DtRow.key
    ∧ JVal.str "" ∈ (equipCountSorted rows).map CountRow.key
    ∧ JVal.str "" ∈ (equipDtSorted rows).map DtRow.key
    ∧ topEquipCount rows = (equipCountSorted rows).take 20
    ∧ topEquipDt rows = (equipDtSorted rows).take 20 := by
  obtain ⟨rl, hrl, hrle⟩ := hline
  obtain ⟨re, hre, hree⟩ := hequip
  have hl : JVal.str "" ∈ jKeys NormRow.line rows :=
    mem_jKeys NormRow.line rows _ (List.mem_map.mpr ⟨rl, hrl, hrle⟩)
      (by simp)
  have he : JVal.str "" ∈ jKeys NormRow.equipment rows :=
    mem_jKeys NormRow.equipment rows _ (List.mem_map.mpr ⟨re, hre, hree⟩)
      (by simp)
  refine ⟨?_, ?_, ?_, ?_, rfl, rfl⟩
  · unfold byLineCount
    rw [((isortKey_perm CountRow.Count _ _).map CountRow.key).mem_iff,
      countTable_keys]
    exact hl
  · unfold byLineDt
    rw [((isortKey_perm DtRow.TotalDowntimeMin _ _).map DtRow.key).mem_iff,
      dtTable_keys]
    exact hl
  · unfold equipCountSorted
    rw [((isortKey_perm CountRow.Count _ _).map CountRow.key).mem_iff,
      countTable_keys]
    exact he
  · unfold equipDtSorted
    rw [((isortKey_perm DtRow.TotalDowntimeMin _ _).map DtRow.key).mem_iff,
      dtTable_keys]
    exact he

/-- Witness for c7_empty_key_bucket at a two-row input. -/
theorem c7_empty_key_bucket_witness :
    (∃ r ∈ [mkRow (.str "") (.str "") 5, mkRow (.str "A") (.str "E1") 3],
      r.line = .str "")
    ∧ (∃ r ∈ [mkRow (.str "") (.str "") 5, mkRow (.str "A") (.str "E1") 3],
      r.equipment = .str "")
    ∧ JVal.str "" ∈ (byLineCount
        [mkRow (.str "") (.str "") 5, mkRow (.str "A") (.str "E1") 3]).map
        CountRow.key := by
  refine ⟨by decide, by decide, ?_⟩
  exact (c7_empty_key_bucket
    [mkRow (.str "") (.str "") 5, mkRow (.str "A") (.str "E1") 3]
    (by decide) (by decide)).1

/-- C8 counterexample: two records on lines "B" then "A" tie at count 1,
but the By-line count view lists "A" before "B" because the grouping
step sorts the group keys, so ties do not follow original record
order. -/
theorem c8_counterexample :
    (load_logs [[("date", JVal.str "2024-01-05"), ("line", JVal.str "B")],
        [("date", JVal.str "2024-01-05"), ("line", JVal.str "A")]]).map
      (fun res => res.rows.map NormRow.line) =
      .ok [JVal.str "B", JVal.str "A"]
    ∧ (load_logs [[("date", JVal.str "2024-01-05"), ("line", JVal.str "B")],
        [("date", JVal.str "2024-01-05"), ("line", JVal.str "A")]]).map
      (fun res => byLineCount res.rows) =
      .ok [{ key := JVal.str "A", Count := 1 },
        { key := JVal.str "B", Count := 1 }] :=
  ⟨by rfl, by rfl⟩

/-- C8 amended: tied rows carry no stable-order guarantee — the
grouping step already reorders rows into ascending group-key order, and
the value sort is pandas' default quicksort, whose tie order is
unspecified.  What the program does guarantee, for any correct sort, is
that each view is a permutation of its grouped table (the raw view: of
the normalized record list) arranged by the view's stated sort key:
Count and TotalDowntimeMin non-increasing, month non-decreasing, date
non-decreasing with NaT last, and the top-equipment views truncated to
the first 20 rows after that sort. -/
theorem c8_view_order (rows : List NormRow) :
    (List.Perm (byLineCount rows) (countTable NormRow.line rows)
      ∧ List.Pairwise (fun a b => b.Count ≤ a.Count) (byLineCount rows))
    ∧ (List.Perm (byLineDt rows) (dtTable NormRow.line rows)
      ∧ List.Pairwise (fun a b => b.TotalDowntimeMin ≤ a.TotalDowntimeMin)
          (byLineDt rows))
    ∧ (List.Perm (byMonthDt rows) (monthTable rows)
      ∧ List.Pairwise (fun a b => strLe a.month b.month = true)
          (byMonthDt rows))
    ∧ (List.Perm (byCategory rows) (catTable rows)
      ∧ List.Pairwise (fun a b => b.TotalDowntimeMin ≤ a.TotalDowntimeMin)
          (byCategory rows))
    ∧ (List.Perm (equipCountSorted rows) (countTable NormRow.equipment rows)
      ∧ List.Pairwise (fun a b => b.Count ≤ a.Count) (equipCountSorted rows)
      ∧ topEquipCount rows = (equipCountSorted rows).take 20)
    ∧ (List.Perm (equipDtSorted rows) (dtTable NormRow.equipment rows)
      ∧ List.Pairwise (fun a b => b.TotalDowntimeMin ≤ a.TotalDowntimeMin)
          (equipDtSorted rows)
      ∧ topEquipDt rows = (equipDtSorted rows).take 20)
    ∧ (List.Perm (rawSorted rows) rows
      ∧ List.Pairwise (fun a b => dateLe a.date b.date = true)
          (rawSorted rows)) := by
  refine ⟨⟨isortKey_perm _ _ _, ?_⟩, ⟨isortKey_perm _ _ _, ?_⟩,
    ⟨isortKey_perm _ _ _, ?_⟩, ⟨isortKey_perm _ _ _, ?_⟩,
    ⟨isortKey_perm _ _ _, ?_, rfl⟩, ⟨isortKey_perm _ _ _, ?_, rfl⟩,
    ⟨isortKey_perm _ _ _, ?_⟩⟩
  · exact isortKey_sorted_desc CountRow.Count _
  · exact isortKey_sorted_desc DtRow.TotalDowntimeMin _
  · exact isortKey_sorted_str MonthRow.month _
  · exact isortKey_sorted_desc CatRow.TotalDowntimeMin _
  · exact isortKey_sorted_desc CountRow.Count _
  · exact isortKey_sorted_desc DtRow.TotalDowntimeMin _
  · exact isortKey_sorted_date NormRow.date _

end MaintSmart
